/-
Verification of the Treta mood-classification and smart-queue core.

The definitions below are a shallow embedding of the Python sources:
  src/core/smart_queue.py   (SmartQueue: queue-generation strategies)
  src/core/mood_detector.py (MoodDetector: training, prediction, heuristic)
  src/db/manager.py         (DatabaseManager: smart_queue table operations)
  src/db/models.py          (Track dataclass, MOOD_CATEGORIES)

Modelling conventions:
  - Python datetimes are modelled as integer epoch seconds (Int); a missing
    datetime is `none`.  `timedelta.days` is floor division by 86400.
  - Python floats are modelled as rationals.
  - The ambient global `random` module is modelled by an explicit record of
    deterministic functions (`RNG`); `RNG.Valid` states exactly what the
    library guarantees (shuffle permutes, sample draws without replacement,
    choice picks a member).
  - SQLite tables are lists of rows; SQL NULL comparison semantics are
    modelled explicitly where they matter (removeFromQueue).
-/
import Mathlib

/-- A music track, mirroring the `Track` dataclass of src/db/models.py
(restricted to the fields the queue and mood logic reads). -/
structure Track where
  id : Int
  title : String
  artist : String
  mood : Option String
  play_count : Int
  downloaded_at : Option Int
  last_played : Option Int
  audio_features : Option (List (String × ℚ))
  deriving DecidableEq, Repr

/-- The closed 10-label mood enumeration, from src/db/models.py. -/
def MOOD_CATEGORIES : List String :=
  ["happy", "sad", "energetic", "calm", "angry", "romantic",
   "melancholic", "upbeat", "chill", "intense"]

/-- Python `dict.get(key, default)` over an association list (dict keys are
unique, so first match suffices). -/
def dictGet : List (String × ℚ) → String → ℚ → ℚ
  | [], _, default => default
  | (k₂, v) :: rest, k, default => if k₂ = k then v else dictGet rest k default

/-- The heuristic rule cascade of `MoodDetector.suggest_mood_for_features`
(src/core/mood_detector.py, lines 294-327): defaults tempo=120, energy
(rmse_mean)=0.1, brightness (spectral_centroid_mean)=2000, then eight ordered
rules with first match winning. -/
def suggest_mood_for_features (features : List (String × ℚ)) : String :=
  let tempo := dictGet features "tempo" 120
  let energy := dictGet features "rmse_mean" (1/10)
  let brightness := dictGet features "spectral_centroid_mean" 2000
  if tempo > 140 ∧ energy > 15/100 then "energetic"
  else if tempo > 120 ∧ energy > 12/100 then "upbeat"
  else if tempo < 80 ∧ energy < 8/100 then "sad"
  else if tempo < 100 ∧ brightness < 1500 then "melancholic"
  else if energy > 2/10 then "intense"
  else if tempo > 100 ∧ brightness > 2500 then "happy"
  else if energy < 1/10 then "calm"
  else "chill"

/-- The single-hop mood-similarity table of `SmartQueue._get_similar_moods`
(src/core/smart_queue.py, lines 313-335); unknown moods map to `[]`. -/
def get_similar_moods (mood : String) : List String :=
  if mood = "happy" then ["upbeat", "energetic", "romantic"]
  else if mood = "sad" then ["melancholic", "calm"]
  else if mood = "energetic" then ["upbeat", "intense", "happy"]
  else if mood = "calm" then ["chill", "romantic", "melancholic"]
  else if mood = "angry" then ["intense", "energetic"]
  else if mood = "romantic" then ["calm", "happy", "chill"]
  else if mood = "melancholic" then ["sad", "calm"]
  else if mood = "upbeat" then ["happy", "energetic"]
  else if mood = "chill" then ["calm", "romantic"]
  else if mood = "intense" then ["angry", "energetic"]
  else []

example : suggest_mood_for_features
    [("tempo", 150), ("rmse_mean", 2/10), ("spectral_centroid_mean", 1000)]
    = "energetic" := by norm_num +decide [suggest_mood_for_features, dictGet]

example : suggest_mood_for_features
    [("tempo", 70), ("rmse_mean", 5/100), ("spectral_centroid_mean", 1000)]
    = "sad" := by norm_num +decide [suggest_mood_for_features, dictGet]

example : suggest_mood_for_features
    [("tempo", 110), ("rmse_mean", 5/100), ("spectral_centroid_mean", 1000)]
    = "calm" := by norm_num +decide [suggest_mood_for_features, dictGet]

/-- One row of the `smart_queue` SQLite table (src/db/schema, used by
src/db/manager.py). -/
structure QueueRow where
  track_id : Int
  position : Int
  queue_type : String
  deriving DecidableEq, Repr

/-- `DatabaseManager.create_smart_queue` (src/db/manager.py, lines 305-318):
delete all rows of the queue type, then insert the ids enumerated from
position 0. -/
def create_smart_queue (track_ids : List Int) (queue_type : String)
    (tbl : List QueueRow) : List QueueRow :=
  tbl.filter (fun r => ¬ r.queue_type = queue_type) ++
    (track_ids.enum.map fun p => ⟨p.2, Int.ofNat p.1, queue_type⟩)

/-- `DatabaseManager.get_smart_queue` (src/db/manager.py, lines 320-331):
rows of the queue type ordered by position (the join back to `tracks` is
dropped; we return the rows themselves). -/
def get_smart_queue (queue_type : String) (tbl : List QueueRow) : List QueueRow :=
  List.insertionSort (fun a b => a.position ≤ b.position)
    (tbl.filter (fun r => r.queue_type = queue_type))

/-- SQL comparison `position > subquery` where the subquery may be NULL:
NULL comparisons are not true. -/
def sqlGtNullable (p : Int) : Option Int → Bool
  | some m => p > m
  | none => false

/-- `DatabaseManager.remove_from_queue` (src/db/manager.py, lines 338-357),
translated statement by statement, including SQL NULL semantics: the DELETE
runs first, then the UPDATE decrements positions greater than
`SELECT MIN(position) ... WHERE track_id = ? AND queue_type = ?` — a subquery
evaluated against the already-deleted table, so its result is NULL (`none`)
and `position > NULL` is never true. -/
def remove_from_queue (track_id : Int) (queue_type : String)
    (tbl : List QueueRow) : List QueueRow :=
  let afterDelete := tbl.filter
    (fun r => ¬ (r.track_id = track_id ∧ r.queue_type = queue_type))
  let subqueryMin : Option Int :=
    ((afterDelete.filter
      (fun r => r.track_id = track_id ∧ r.queue_type = queue_type)).map
        (fun r => r.position)).min?
  afterDelete.map fun r =>
    if r.queue_type = queue_type ∧ sqlGtNullable r.position subqueryMin then
      { r with position := r.position - 1 }
    else r

/-- Positions of a stored queue, in queue order. -/
def queuePositions (queue_type : String) (tbl : List QueueRow) : List Int :=
  (get_smart_queue queue_type tbl).map (fun r => r.position)

/-- The queue invariant claimed by the spec: positions are exactly
0, 1, ..., n-1 in order. -/
def contiguousFromZero (l : List Int) : Prop :=
  l = (List.range l.length).map Int.ofNat

example :
    remove_from_queue 2 "default"
      [⟨1, 0, "default"⟩, ⟨2, 1, "default"⟩, ⟨3, 2, "default"⟩]
      = [⟨1, 0, "default"⟩, ⟨3, 2, "default"⟩] := by decide

/-- The operations SmartQueue draws from the `random` module, made explicit:
`shuffleTracks` stands for `random.shuffle`, `sampleTracks` for
`random.sample`, `choiceMood` for `random.choice` over mood names. -/
structure RNG where
  shuffleTracks : List Track → List Track
  sampleTracks : List Track → Nat → List Track
  choiceMood : List String → Option String

/-- Exactly what the `random` module guarantees of the modelled operations:
shuffling permutes, sampling draws distinct positions without replacement
(callers always request `min k n` elements), choice returns a member of a
nonempty list. -/
def RNG.Valid (rng : RNG) : Prop :=
  (∀ l, (rng.shuffleTracks l).Perm l) ∧
  (∀ l k, (rng.sampleTracks l k).Subperm l) ∧
  (∀ l k, (rng.sampleTracks l k).length = min k l.length) ∧
  (∀ l m, rng.choiceMood l = some m → m ∈ l) ∧
  (∀ l, l ≠ [] → (rng.choiceMood l).isSome)

/-- A concrete degenerate generator: shuffling keeps order, sampling takes a
prefix, choice takes the head.  One possible behaviour of the real module. -/
def idRNG : RNG :=
  ⟨fun l => l, fun l k => l.take k, fun l => l.head?⟩

/-- Python stable `sort(key=play_count, reverse=True)`: ties keep their
original relative order. -/
def sortByPlayCountDesc (l : List Track) : List Track :=
  List.insertionSort (fun a b => b.play_count ≤ a.play_count) l

/-- The similar-mood extension loop of `generate_mood_queue`
(src/core/smart_queue.py, lines 48-53): extend by each similar mood in table
order, stopping once the pool reaches `limit`. -/
def extend_similar_moods (all_tracks : List Track) (limit : Nat) :
    List String → List Track → List Track
  | [], acc => acc
  | m :: rest, acc =>
    let acc' := acc ++ all_tracks.filter (fun t => t.mood = some m)
    if limit ≤ acc'.length then acc'
    else extend_similar_moods all_tracks limit rest acc'

/-- The mood pool of `generate_mood_queue` (src/core/smart_queue.py, lines
43-53): exact matches, extended with similar moods only while short of
`limit`. -/
def mood_pool (all_tracks : List Track) (mood : String) (limit : Nat) :
    List Track :=
  let exact := all_tracks.filter (fun t => t.mood = some mood)
  if exact.length < limit then
    extend_similar_moods all_tracks limit (get_similar_moods mood) exact
  else exact

/-- The selection step of `generate_mood_queue` (src/core/smart_queue.py,
lines 55-64): rank by play count; when over `limit`, keep the top half and a
random sample of the rest. -/
def mood_selection (rng : RNG) (all_tracks : List Track) (mood : String)
    (limit : Nat) : List Track :=
  let sorted := sortByPlayCountDesc (mood_pool all_tracks mood limit)
  if limit < sorted.length then
    let tail := sorted.drop (limit / 2)
    sorted.take (limit / 2) ++ rng.sampleTracks tail (min (limit / 2) tail.length)
  else sorted

/-- `SmartQueue.generate_mood_queue` (src/core/smart_queue.py, lines 28-78):
the selection, shuffled and truncated to `limit`. -/
def generate_mood_queue (rng : RNG) (all_tracks : List Track) (mood : String)
    (limit : Nat) : List Track :=
  (rng.shuffleTracks (mood_selection rng all_tracks mood limit)).take limit

/-- The discovery candidate pool (src/core/smart_queue.py, lines 153-158):
tracks with play_count < 3, extended with 3 ≤ play_count < 10 when short. -/
def discovery_pool (all_tracks : List Track) (limit : Nat) : List Track :=
  let lowPlay := all_tracks.filter (fun t => t.play_count < 3)
  if lowPlay.length < limit then
    lowPlay ++ all_tracks.filter (fun t => 3 ≤ t.play_count ∧ t.play_count < 10)
  else lowPlay

/-- `datetime.min` (0001-01-01T00:00:00) as epoch seconds: the sort key
Python substitutes for a missing timestamp. -/
def datetimeMin : Int := -62135596800

/-- Python stable `sort(key=downloaded_at or datetime.min, reverse=True)`. -/
def sortByDownloadedDesc (l : List Track) : List Track :=
  List.insertionSort (fun a b =>
    b.downloaded_at.getD datetimeMin ≤ a.downloaded_at.getD datetimeMin) l

/-- First pass of `generate_discovery_queue` (src/core/smart_queue.py, lines
167-173): walk the pool, keep a track only when its artist is new, and break
once `limit` tracks are selected (the break is checked after appending). -/
def discovery_first_pass (limit : Nat) :
    List Track → List String → List Track → List Track
  | [], _, selected => selected
  | t :: rest, used, selected =>
    if t.artist ∈ used then discovery_first_pass limit rest used selected
    else
      let selected' := selected ++ [t]
      if limit ≤ selected'.length then selected'
      else discovery_first_pass limit rest (used ++ [t.artist]) selected'

/-- The discovery pool sorted by download recency (src/core/smart_queue.py,
line 161). -/
def discovery_sorted (all_tracks : List Track) (limit : Nat) : List Track :=
  sortByDownloadedDesc (discovery_pool all_tracks limit)

/-- The first-pass selection over the sorted pool, started with empty
`used_artists` and `selected_tracks`. -/
def discovery_selected (all_tracks : List Track) (limit : Nat) : List Track :=
  discovery_first_pass limit (discovery_sorted all_tracks limit) [] []

/-- `SmartQueue.generate_discovery_queue` (src/core/smart_queue.py, lines
140-190): pool sorted by download recency, one-per-artist first pass, then a
shuffled fill of the leftover pool up to `limit`. -/
def generate_discovery_queue (rng : RNG) (all_tracks : List Track)
    (limit : Nat) : List Track :=
  let selected := discovery_selected all_tracks limit
  if selected.length < limit then
    let remaining :=
      (discovery_sorted all_tracks limit).filter (fun t => ¬ t ∈ selected)
    selected ++ (rng.shuffleTracks remaining).take (limit - selected.length)
  else selected

/-- `favorite_score` (src/core/smart_queue.py, lines 220-226):
play_count * 10 plus max(0, 30 - whole days since last played), with 0 for a
never-played track. -/
def favorite_score (now : Int) (t : Track) : Int :=
  let recency : Int :=
    match t.last_played with
    | none => 0
    | some lp => max 0 (30 - (now - lp).fdiv 86400)
  t.play_count * 10 + recency

/-- Truthy `t.last_played and t.last_played > recent_cutoff`. -/
def playedAfter (cutoff : Int) (t : Track) : Bool :=
  match t.last_played with
  | some lp => cutoff < lp
  | none => false

/-- Python `dict[key] = value` insertion into an insertion-ordered dict:
an existing key keeps its place and gets the new value, a new key is
appended. -/
def dict_upsert (acc : List Track) (t : Track) : List Track :=
  if acc.any (fun u => u.id = t.id) then
    acc.map (fun u => if u.id = t.id then t else u)
  else acc ++ [t]

/-- Python dict-comprehension dedup used for the favorites union:
the first occurrence of an id keeps its position; its value is the last
track carrying that id. -/
def dedupById (l : List Track) : List Track :=
  l.foldl dict_upsert []

/-- The deduplicated favorites selection (src/core/smart_queue.py, lines
204-217): top half by play count united with the most recent plays of the
last 30 days. -/
def favorites_selected (all_tracks : List Track) (now : Int) (limit : Nat) :
    List Track :=
  let most_played := (sortByPlayCountDesc all_tracks).take (limit / 2)
  let cutoff := now - 30 * 86400
  let recently :=
    (List.insertionSort (fun a b =>
      b.last_played.getD datetimeMin ≤ a.last_played.getD datetimeMin)
      (all_tracks.filter (playedAfter cutoff))).take (limit / 2)
  dedupById (most_played ++ recently)

/-- The favorites selection sorted by `favorite_score` descending
(src/core/smart_queue.py, line 228), before truncation and shuffle. -/
def favorites_ranked (all_tracks : List Track) (now : Int) (limit : Nat) :
    List Track :=
  List.insertionSort (fun a b => favorite_score now b ≤ favorite_score now a)
    (favorites_selected all_tracks now limit)

/-- `SmartQueue.generate_favorites_queue` (src/core/smart_queue.py, lines
192-243): rank, truncate to `limit`, shuffle. -/
def generate_favorites_queue (rng : RNG) (all_tracks : List Track)
    (now : Int) (limit : Nat) : List Track :=
  rng.shuffleTracks ((favorites_ranked all_tracks now limit).take limit)

/-- Python `str.lower()` over the characters (ASCII case folding, which is
all the artist-name comparisons need). -/
def lowerString (s : String) : String :=
  ⟨s.data.map Char.toLower⟩

/-- `defaultdict(list)` accumulation keyed by artist, in insertion order
(src/core/smart_queue.py, lines 357-360). -/
def stats_insert (acc : List (String × List Int)) (key : String) (v : Int) :
    List (String × List Int) :=
  if acc.any (fun p => p.1 = key) then
    acc.map (fun p => if p.1 = key then (p.1, p.2 ++ [v]) else p)
  else acc ++ [(key, [v])]

/-- Mean of a list of play counts as a float (rational). -/
def meanPlays (l : List Int) : ℚ :=
  (l.map (fun v => (v : ℚ))).sum / l.length

/-- `SmartQueue._find_similar_artists` (src/core/smart_queue.py, lines
337-370): artists (other than the target, case-insensitively) with at least
two tracks whose mean play count lies within 50 percent relative difference
of the target mean; first five in insertion order. -/
def find_similar_artists (artist_name : String) (all_tracks : List Track) :
    List String :=
  let target := all_tracks.filter
    (fun t => lowerString t.artist = lowerString artist_name)
  if target.isEmpty then []
  else
    let avg := meanPlays (target.map (fun t => t.play_count))
    let others := all_tracks.filter
      (fun t => ¬ lowerString t.artist = lowerString artist_name)
    let stats := others.foldl (fun acc t => stats_insert acc t.artist t.play_count) []
    ((stats.filter (fun p =>
        2 ≤ p.2.length ∧ |meanPlays p.2 - avg| / max avg 1 < 1/2)).map
      Prod.fst).take 5

/-- The similar-artist extension loop of `generate_artist_queue`
(src/core/smart_queue.py, lines 101-105): case-insensitive artist matches
appended per similar artist until the pool reaches `limit`. -/
def extend_artists (all_tracks : List Track) (limit : Nat) :
    List String → List Track → List Track
  | [], acc => acc
  | a :: rest, acc =>
    let acc' := acc ++ all_tracks.filter (fun t => lowerString t.artist = lowerString a)
    if limit ≤ acc'.length then acc'
    else extend_artists all_tracks limit rest acc'

/-- `SmartQueue.generate_artist_queue` (src/core/smart_queue.py, lines
80-138): exact case-insensitive matches, extended via similar artists while
short, ranked by play count, composed from a popular third plus samples of
the middle third and of the leftover tracks, shuffled, truncated. -/
def generate_artist_queue (rng : RNG) (all_tracks : List Track)
    (artist_name : String) (limit : Nat) : List Track :=
  let exact := all_tracks.filter
    (fun t => lowerString t.artist = lowerString artist_name)
  let artist_tracks :=
    if exact.length < limit then
      extend_artists all_tracks limit (find_similar_artists artist_name all_tracks)
        exact
    else exact
  let sorted := sortByPlayCountDesc artist_tracks
  let tracks :=
    if limit < sorted.length then
      let medium := (sorted.drop (limit / 3)).take (2 * limit / 3 - limit / 3)
      let tracks₁ := sorted.take (limit / 3) ++
        rng.sampleTracks medium (min (limit / 3) medium.length)
      let remaining := sorted.filter (fun t => ¬ t ∈ tracks₁)
      if ¬ remaining.isEmpty then
        tracks₁ ++ rng.sampleTracks remaining (min (limit / 3) remaining.length)
      else tracks₁
    else sorted
  (rng.shuffleTracks tracks).take limit

/-- Keys of the `mood_breakdown` statistic (src/db/manager.py, lines
281-287): the distinct non-null moods present in the store.  Row order of the
SQL GROUP BY is backend-defined; only membership is relied upon. -/
def mood_breakdown_keys (all_tracks : List Track) : List String :=
  (all_tracks.filterMap (fun t => t.mood)).dedup

/-- `SmartQueue.generate_mixed_queue` (src/core/smart_queue.py, lines
245-291): quarter-sized favorites, discovery and randomly-chosen mood
queues, the remainder filled from shuffled not-yet-used tracks, truncated
and shuffled.  Only `remaining` is filtered against already-used ids, so the
three sub-queues may overlap each other. -/
def generate_mixed_queue (rng : RNG) (all_tracks : List Track) (now : Int)
    (limit : Nat) : List Track :=
  let favorites := generate_favorites_queue rng all_tracks now (limit / 4)
  let discovery := generate_discovery_queue rng all_tracks (limit / 4)
  let moods := mood_breakdown_keys all_tracks
  let mood_tracks :=
    if moods.isEmpty then []
    else
      match rng.choiceMood moods with
      | some m => generate_mood_queue rng all_tracks m (limit / 4)
      | none => []
  let used_ids := (favorites ++ discovery ++ mood_tracks).map (fun t => t.id)
  let remaining := all_tracks.filter (fun t => ¬ t.id ∈ used_ids)
  let mixed :=
    (favorites ++ discovery ++ mood_tracks ++ rng.shuffleTracks remaining).take
      limit
  rng.shuffleTracks mixed

/-- The 21 feature names of `MoodDetector.feature_names`
(src/core/mood_detector.py, lines 42-50), in source order. -/
def feature_names : List String :=
  ["tempo", "spectral_centroid_mean", "spectral_centroid_std",
   "spectral_rolloff_mean", "spectral_rolloff_std",
   "zero_crossing_rate_mean", "zero_crossing_rate_std",
   "mfcc_1_mean", "mfcc_1_std", "mfcc_2_mean", "mfcc_2_std",
   "mfcc_3_mean", "mfcc_3_std", "mfcc_4_mean", "mfcc_4_std",
   "mfcc_5_mean", "mfcc_5_std", "chroma_mean", "chroma_std",
   "rmse_mean", "rmse_std"]

/-- Python `dict[key]` lookup: `none` models a KeyError. -/
def dictFind? : List (String × ℚ) → String → Option ℚ
  | [], _ => none
  | (k₂, v) :: rest, k => if k₂ = k then some v else dictFind? rest k

/-- `[features[name] for name in self.feature_names]`: the full feature
vector, or `none` when any name is missing (KeyError). -/
def feature_vector_of (d : List (String × ℚ)) : Option (List ℚ) :=
  feature_names.mapM (dictFind? d)

/-- Python truthiness of `track.mood` (an empty string is falsy). -/
def moodTruthy : Option String → Bool
  | some s => ¬ s = ""
  | none => false

/-- Python truthiness of `track.audio_features` (an empty dict is falsy). -/
def featuresTruthy : Option (List (String × ℚ)) → Bool
  | some d => ¬ d.isEmpty
  | none => false

/-- The fitted ensemble classifier, kept opaque: the fitted data plus the
prediction behaviour sklearn gives it. -/
structure Classifier where
  fitted : List (List ℚ × String)
  predictLabel : List ℚ → String
  confidence : List ℚ → ℚ

/-- The fitted feature scaler, kept opaque. -/
structure Scaler where
  transform : List ℚ → List ℚ

/-- The mutable ML state of a `MoodDetector`: `self.classifier` (None until
trained or loaded) and `self.scaler`. -/
structure DetectorState where
  classifier : Option Classifier
  scaler : Scaler

/-- The training-data collection loop of `MoodDetector.train_model`
(src/core/mood_detector.py, lines 202-222): a track contributes a sample
when its mood and audio_features are truthy and either the stored features
are complete or re-extraction from the file succeeds.  `fs t` models the
fallback `extract_features(track.file_path)`: `some v` when the path is set,
the file exists and extraction returns a (necessarily complete) nonempty
dict, else `none`. -/
def collect_training (fs : Track → Option (List ℚ)) :
    List Track → List (List ℚ × String)
  | [] => []
  | t :: rest =>
    let tail := collect_training fs rest
    if moodTruthy t.mood && featuresTruthy t.audio_features then
      match feature_vector_of (t.audio_features.getD []) with
      | some v => (v, t.mood.getD "") :: tail
      | none =>
        match fs t with
        | some v => (v, t.mood.getD "") :: tail
        | none => tail
    else tail

/-- The body of `MoodDetector._save_model` (src/core/mood_detector.py, lines
265-273): the joblib dumps run only when a classifier exists; `dump` models
their I/O outcome. -/
def save_model_outcome (classifier : Option Classifier)
    (dump : Except String Unit) : Except String Unit :=
  match classifier with
  | some _ => dump
  | none => Except.ok ()

/-- `_save_model` wraps its body in try/except and only logs a failure;
the returned flag (success?) is discarded by every caller. -/
def save_model_logged (classifier : Option Classifier)
    (dump : Except String Unit) : Bool :=
  match save_model_outcome classifier dump with
  | Except.ok _ => true
  | Except.error _ => false

/-- `MoodDetector.train_model` (src/core/mood_detector.py, lines 191-263).
Fewer than 10 collected samples: log and return False, state untouched.
Otherwise `ml` abstracts the numpy conversion, stratified split, scaler fit
and ensemble fit (`Except.ok` = the fit succeeded, producing the fitted
classifier and scaler); on its failure the outer `except` returns False.
`_save_model` runs after a successful fit and swallows any dump failure, so
`dump` never influences the returned flag. -/
def train_model (st : DetectorState) (tracks : List Track)
    (fs : Track → Option (List ℚ))
    (ml : Except String (Classifier × Scaler))
    (dump : Except String Unit) : Bool × DetectorState :=
  let data := collect_training fs tracks
  if data.length < 10 then (false, st)
  else
    match ml with
    | Except.ok (c, s) =>
      let _logged := save_model_logged (some c) dump
      (true, ⟨some c, s⟩)
    | Except.error _ => (false, st)

/-- The prediction step of `MoodDetector.predict_mood`
(src/core/mood_detector.py, lines 129-150) applied to an already-extracted
feature vector: the `(None, 0.0)` sentinel without a model, else the scaled
prediction with its confidence. -/
def predict_from_features (st : DetectorState) (v : List ℚ) :
    Option String × ℚ :=
  match st.classifier with
  | none => (none, 0)
  | some c =>
    (some (c.predictLabel (st.scaler.transform v)),
     c.confidence (st.scaler.transform v))

/-- A complete feature dict: every one of the 21 names mapped to 1. -/
def fullFeatures : List (String × ℚ) :=
  feature_names.map (fun n => (n, 1))

/-- A labelled track with complete stored features, for training scenarios. -/
def trainTrack (i : Int) : Track :=
  ⟨i, "sample", "artist", some "happy", 0, none, none, some fullFeatures⟩

/-- Ten usable labelled samples. -/
def trainStore : List Track :=
  [trainTrack 1, trainTrack 2, trainTrack 3, trainTrack 4, trainTrack 5,
   trainTrack 6, trainTrack 7, trainTrack 8, trainTrack 9, trainTrack 10]

/-- A concrete fitted classifier, for states with a loaded model. -/
def classifierC : Classifier :=
  ⟨[], fun _ => "happy", fun _ => 1⟩

/-- A concrete scaler. -/
def scalerC : Scaler :=
  ⟨fun v => v⟩

/-- A detector state with a previously loaded model. -/
def detectorStateC : DetectorState :=
  ⟨some classifierC, scalerC⟩

/-- A two-track store in which one track qualifies for the favorites,
discovery and mood sub-queues of the mixed strategy at once. -/
def mixedStore : List Track :=
  [⟨1, "t1", "a", some "happy", 5, none, none, none⟩,
   ⟨2, "t2", "b", some "happy", 4, none, none, none⟩]

/-- A store with two artists whose names differ only by letter case. -/
def artistStore : List Track :=
  [⟨1, "a1", "Alice", none, 2, none, none, none⟩,
   ⟨2, "b1", "Bob", none, 2, none, none, none⟩,
   ⟨3, "b2", "Bob", none, 2, none, none, none⟩,
   ⟨4, "b3", "bob", none, 2, none, none, none⟩,
   ⟨5, "b4", "bob", none, 2, none, none, none⟩]

/-- Three happy tracks plus five tracks over the moods similar to happy. -/
def c6Store : List Track :=
  [⟨1, "h1", "a", some "happy", 9, none, none, none⟩,
   ⟨2, "h2", "b", some "happy", 8, none, none, none⟩,
   ⟨3, "h3", "c", some "happy", 7, none, none, none⟩,
   ⟨4, "u1", "d", some "upbeat", 6, none, none, none⟩,
   ⟨5, "u2", "e", some "upbeat", 5, none, none, none⟩,
   ⟨6, "e1", "f", some "energetic", 4, none, none, none⟩,
   ⟨7, "e2", "g", some "energetic", 3, none, none, none⟩,
   ⟨8, "r1", "h", some "romantic", 2, none, none, none⟩]

/-- The reference time of the favorites scoring example. -/
def favNow : Int := 100 * 86400

/-- trackA of the spec example: play_count 10, never played. -/
def favA : Track := ⟨1, "A", "x", none, 10, none, none, none⟩

/-- trackB of the spec example: play_count 1, played one day ago. -/
def favB : Track := ⟨2, "B", "y", none, 1, none, some (favNow - 86400), none⟩

/-- The two-track store of the favorites scoring example. -/
def favStore : List Track := [favA, favB]


theorem nodup_of_subperm {α : Type} {l₁ l₂ : List α} (h : l₁.Subperm l₂)
    (h₂ : l₂.Nodup) : l₁.Nodup := by
  obtain ⟨l, hp, hs⟩ := h
  exact hp.nodup_iff.mp (List.Nodup.sublist hs h₂)

theorem nodup_map_of_mem {α β : Type} (f : α → β) {l s : List α}
    (hl : l.Nodup) (hsub : ∀ x ∈ l, x ∈ s) (hs : (s.map f).Nodup) :
    (l.map f).Nodup :=
  List.Nodup.map_on
    (fun x hx y hy hf => List.inj_on_of_nodup_map hs (hsub x hx) (hsub y hy) hf)
    hl

theorem idRNG_valid : idRNG.Valid := by
  refine ⟨fun l => List.Perm.refl l,
          fun l k => (List.take_sublist k l).subperm,
          fun l k => by simp [idRNG],
          fun l m h => List.mem_of_mem_head? (Option.mem_def.mpr h),
          fun l h => by simp [idRNG, List.head?_isSome, h]⟩

theorem get_similar_moods_nodup (m : String) : (get_similar_moods m).Nodup := by
  unfold get_similar_moods
  split_ifs <;> simp_all

theorem self_not_mem_similar (m : String) : m ∉ get_similar_moods m := by
  unfold get_similar_moods
  split_ifs <;> simp_all

theorem mem_extend_similar_moods {all_tracks : List Track} {limit : Nat} :
    ∀ {ms : List String} {acc : List Track} {t : Track},
      t ∈ extend_similar_moods all_tracks limit ms acc →
      t ∈ acc ∨ ∃ m ∈ ms, t ∈ all_tracks ∧ t.mood = some m := by
  intro ms
  induction ms with
  | nil => intro acc t h; exact Or.inl h
  | cons m rest ih =>
    intro acc t h
    rw [extend_similar_moods] at h
    have step : ∀ {u : Track},
        u ∈ acc ++ all_tracks.filter (fun t => t.mood = some m) →
        u ∈ acc ∨ ∃ m' ∈ m :: rest, u ∈ all_tracks ∧ u.mood = some m' := by
      intro u hu
      rcases List.mem_append.mp hu with h₁ | h₂
      · exact Or.inl h₁
      · have hf := List.mem_filter.mp h₂
        exact Or.inr ⟨m, List.mem_cons_self m rest, hf.1, by simpa using hf.2⟩
    by_cases hc :
        limit ≤ (acc ++ all_tracks.filter (fun t => t.mood = some m)).length
    · rw [if_pos hc] at h
      exact step h
    · rw [if_neg hc] at h
      rcases ih h with h₁ | ⟨m', hm', ht⟩
      · exact step h₁
      · exact Or.inr ⟨m', List.mem_cons_of_mem m hm', ht⟩

theorem nodup_extend_similar_moods {all_tracks : List Track} {limit : Nat}
    (hall : all_tracks.Nodup) :
    ∀ {ms : List String} {acc : List Track}, acc.Nodup → ms.Nodup →
      (∀ t ∈ acc, ∀ m ∈ ms, ¬ t.mood = some m) →
      (extend_similar_moods all_tracks limit ms acc).Nodup := by
  intro ms
  induction ms with
  | nil => intro acc ha _ _; exact ha
  | cons m rest ih =>
    intro acc ha hms hdisj
    rw [extend_similar_moods]
    have hacc' : (acc ++ all_tracks.filter (fun t => t.mood = some m)).Nodup := by
      refine List.nodup_append.mpr ⟨ha, List.Nodup.filter _ hall, ?_⟩
      intro t ht htf
      have hf := List.mem_filter.mp htf
      exact hdisj t ht m (List.mem_cons_self m rest) (by simpa using hf.2)
    by_cases hc :
        limit ≤ (acc ++ all_tracks.filter (fun t => t.mood = some m)).length
    · rw [if_pos hc]; exact hacc'
    · rw [if_neg hc]
      refine ih hacc' (List.Nodup.of_cons hms) ?_
      intro t ht m' hm'
      rcases List.mem_append.mp ht with h₁ | h₂
      · exact hdisj t h₁ m' (List.mem_cons_of_mem m hm')
      · have hf := List.mem_filter.mp h₂
        have htm : t.mood = some m := by simpa using hf.2
        intro hcontra
        rw [htm] at hcontra
        have : m = m' := by simpa using hcontra
        subst this
        exact (List.nodup_cons.mp hms).1 hm'

theorem sortByPlayCountDesc_perm (l : List Track) :
    (sortByPlayCountDesc l).Perm l :=
  List.perm_insertionSort _ l

theorem sortByDownloadedDesc_perm (l : List Track) :
    (sortByDownloadedDesc l).Perm l :=
  List.perm_insertionSort _ l

theorem mem_mood_pool {all_tracks : List Track} {mood : String} {limit : Nat}
    {t : Track} (ht : t ∈ mood_pool all_tracks mood limit) :
    t ∈ all_tracks ∧
      (t.mood = some mood ∨ ∃ m ∈ get_similar_moods mood, t.mood = some m) := by
  simp only [mood_pool] at ht
  split at ht
  · rcases mem_extend_similar_moods ht with h₁ | ⟨m, hm, hmem, hmood⟩
    · have hf := List.mem_filter.mp h₁
      exact ⟨hf.1, Or.inl (by simpa using hf.2)⟩
    · exact ⟨hmem, Or.inr ⟨m, hm, hmood⟩⟩
  · have hf := List.mem_filter.mp ht
    exact ⟨hf.1, Or.inl (by simpa using hf.2)⟩

theorem nodup_mood_pool {all_tracks : List Track} {mood : String}
    {limit : Nat} (hall : all_tracks.Nodup) :
    (mood_pool all_tracks mood limit).Nodup := by
  simp only [mood_pool]
  split
  · refine nodup_extend_similar_moods hall (List.Nodup.filter _ hall)
      (get_similar_moods_nodup mood) ?_
    intro t ht m hm hcontra
    have hf := List.mem_filter.mp ht
    have hmood : t.mood = some mood := by simpa using hf.2
    rw [hmood] at hcontra
    have heq : mood = m := by simpa using hcontra
    exact self_not_mem_similar mood (heq ▸ hm)
  · exact List.Nodup.filter _ hall

theorem mem_mood_selection {rng : RNG} (hV : rng.Valid)
    {all_tracks : List Track} {mood : String} {limit : Nat} {t : Track}
    (ht : t ∈ mood_selection rng all_tracks mood limit) :
    t ∈ mood_pool all_tracks mood limit := by
  have hsamp := hV.2.1
  simp only [mood_selection] at ht
  split at ht
  · rcases List.mem_append.mp ht with h₁ | h₂
    · exact (sortByPlayCountDesc_perm _).mem_iff.mp (List.mem_of_mem_take h₁)
    · have hd := (hsamp _ _).subset h₂
      exact (sortByPlayCountDesc_perm _).mem_iff.mp (List.mem_of_mem_drop hd)
  · exact (sortByPlayCountDesc_perm _).mem_iff.mp ht

theorem nodup_mood_selection {rng : RNG} (hV : rng.Valid)
    {all_tracks : List Track} {mood : String} {limit : Nat}
    (hall : all_tracks.Nodup) :
    (mood_selection rng all_tracks mood limit).Nodup := by
  have hsamp := hV.2.1
  have hsorted : (sortByPlayCountDesc (mood_pool all_tracks mood limit)).Nodup :=
    (sortByPlayCountDesc_perm _).nodup_iff.mpr (nodup_mood_pool hall)
  simp only [mood_selection]
  split
  · refine List.nodup_append.mpr
      ⟨List.Nodup.sublist (List.take_sublist _ _) hsorted,
       nodup_of_subperm (hsamp _ _)
         (List.Nodup.sublist (List.drop_sublist _ _) hsorted), ?_⟩
    intro a hTake hSamp
    have hsplit := hsorted
    rw [← List.take_append_drop (limit / 2)
      (sortByPlayCountDesc (mood_pool all_tracks mood limit))] at hsplit
    exact (List.nodup_append.mp hsplit).2.2 hTake ((hsamp _ _).subset hSamp)
  · exact hsorted

theorem mem_generate_mood_queue {rng : RNG} (hV : rng.Valid)
    {all_tracks : List Track} {mood : String} {limit : Nat} {t : Track}
    (ht : t ∈ generate_mood_queue rng all_tracks mood limit) :
    t ∈ mood_pool all_tracks mood limit :=
  mem_mood_selection hV ((hV.1 _).mem_iff.mp (List.mem_of_mem_take ht))

theorem nodup_generate_mood_queue {rng : RNG} (hV : rng.Valid)
    {all_tracks : List Track} {mood : String} {limit : Nat}
    (hall : all_tracks.Nodup) :
    (generate_mood_queue rng all_tracks mood limit).Nodup :=
  List.Nodup.sublist (List.take_sublist _ _)
    ((hV.1 _).nodup_iff.mpr (nodup_mood_selection hV hall))

theorem discovery_first_pass_append (limit : Nat) :
    ∀ (pool : List Track) (used : List String) (selected : List Track),
      ∃ extra,
        discovery_first_pass limit pool used selected = selected ++ extra := by
  intro pool
  induction pool with
  | nil =>
    intro used selected
    exact ⟨[], by simp [discovery_first_pass]⟩
  | cons t rest ih =>
    intro used selected
    simp only [discovery_first_pass]
    by_cases hmem : t.artist ∈ used
    · rw [if_pos hmem]; exact ih used selected
    · rw [if_neg hmem]
      by_cases hlen : limit ≤ (selected ++ [t]).length
      · rw [if_pos hlen]; exact ⟨[t], rfl⟩
      · rw [if_neg hlen]
        obtain ⟨extra, he⟩ := ih (used ++ [t.artist]) (selected ++ [t])
        exact ⟨t :: extra, by simpa [List.append_assoc] using he⟩

theorem mem_discovery_first_pass (limit : Nat) :
    ∀ (pool : List Track) (used : List String) (selected : List Track)
      (t : Track), t ∈ discovery_first_pass limit pool used selected →
      t ∈ selected ∨ t ∈ pool := by
  intro pool
  induction pool with
  | nil =>
    intro used selected t ht
    exact Or.inl (by simpa [discovery_first_pass] using ht)
  | cons t₀ rest ih =>
    intro used selected t ht
    simp only [discovery_first_pass] at ht
    by_cases hmem : t₀.artist ∈ used
    · rw [if_pos hmem] at ht
      rcases ih used selected t ht with h | h
      · exact Or.inl h
      · exact Or.inr (List.mem_cons_of_mem t₀ h)
    · rw [if_neg hmem] at ht
      have hstep : t ∈ selected ++ [t₀] → t ∈ selected ∨ t ∈ t₀ :: rest := by
        intro hu
        rcases List.mem_append.mp hu with h₁ | h₂
        · exact Or.inl h₁
        · exact Or.inr (by simpa using Or.inl (by simpa using h₂))
      by_cases hlen : limit ≤ (selected ++ [t]).length
      · by_cases hlen' : limit ≤ (selected ++ [t₀]).length
        · rw [if_pos hlen'] at ht; exact hstep ht
        · rw [if_neg hlen'] at ht
          rcases ih (used ++ [t₀.artist]) (selected ++ [t₀]) t ht with h | h
          · exact hstep h
          · exact Or.inr (List.mem_cons_of_mem t₀ h)
      · by_cases hlen' : limit ≤ (selected ++ [t₀]).length
        · rw [if_pos hlen'] at ht; exact hstep ht
        · rw [if_neg hlen'] at ht
          rcases ih (used ++ [t₀.artist]) (selected ++ [t₀]) t ht with h | h
          · exact hstep h
          · exact Or.inr (List.mem_cons_of_mem t₀ h)

theorem discovery_first_pass_artists_nodup (limit : Nat) :
    ∀ (pool : List Track) (used : List String) (selected : List Track),
      (selected.map (fun t => t.artist)).Nodup →
      (∀ t ∈ selected, t.artist ∈ used) →
      ((discovery_first_pass limit pool used selected).map
        (fun t => t.artist)).Nodup := by
  intro pool
  induction pool with
  | nil =>
    intro used selected h _
    simpa [discovery_first_pass] using h
  | cons t rest ih =>
    intro used selected hnd hsub
    simp only [discovery_first_pass]
    by_cases hmem : t.artist ∈ used
    · rw [if_pos hmem]; exact ih used selected hnd hsub
    · rw [if_neg hmem]
      have hnd' : ((selected ++ [t]).map (fun t => t.artist)).Nodup := by
        rw [List.map_append]
        refine List.nodup_append.mpr ⟨hnd, by simp, ?_⟩
        intro a ha hb
        simp only [List.map_cons, List.map_nil, List.mem_singleton] at hb
        subst hb
        obtain ⟨u, hu, hua⟩ := List.mem_map.mp ha
        exact hmem (hua ▸ hsub u hu)
      by_cases hlen : limit ≤ (selected ++ [t]).length
      · rw [if_pos hlen]; exact hnd'
      · rw [if_neg hlen]
        refine ih (used ++ [t.artist]) (selected ++ [t]) hnd' ?_
        intro u hu
        rcases List.mem_append.mp hu with h₁ | h₂
        · exact List.mem_append.mpr (Or.inl (hsub u h₁))
        · simp only [List.mem_singleton] at h₂
          subst h₂
          exact List.mem_append.mpr (Or.inr (by simp))

theorem discovery_first_pass_covers (limit : Nat) :
    ∀ (pool : List Track) (used : List String) (selected : List Track),
      (discovery_first_pass limit pool used selected).length < limit →
      ∀ t ∈ pool, t.artist ∈ used ∨
        t.artist ∈ (discovery_first_pass limit pool used selected).map
          (fun u => u.artist) := by
  intro pool
  induction pool with
  | nil => intro used selected _ t ht; cases ht
  | cons t₀ rest ih =>
    intro used selected hlen t ht
    simp only [discovery_first_pass] at hlen ⊢
    by_cases hmem : t₀.artist ∈ used
    · rw [if_pos hmem] at hlen ⊢
      rcases List.mem_cons.mp ht with rfl | hrest
      · exact Or.inl hmem
      · exact ih used selected hlen t hrest
    · rw [if_neg hmem] at hlen ⊢
      by_cases hbreak : limit ≤ (selected ++ [t₀]).length
      · rw [if_pos hbreak] at hlen
        exact absurd hlen (not_lt.mpr hbreak)
      · rw [if_neg hbreak] at hlen ⊢
        obtain ⟨extra, he⟩ :=
          discovery_first_pass_append limit rest (used ++ [t₀.artist])
            (selected ++ [t₀])
        rcases List.mem_cons.mp ht with rfl | hrest
        · right
          rw [he]
          exact List.mem_map.mpr ⟨t, by simp, rfl⟩
        · rcases ih (used ++ [t₀.artist]) (selected ++ [t₀]) hlen t hrest with
            h | h
          · rcases List.mem_append.mp h with h₁ | h₂
            · exact Or.inl h₁
            · right
              simp only [List.mem_singleton] at h₂
              rw [he, h₂]
              exact List.mem_map.mpr ⟨t₀, by simp, rfl⟩
          · exact Or.inr h

theorem mem_discovery_pool {all_tracks : List Track} {limit : Nat} {t : Track}
    (ht : t ∈ discovery_pool all_tracks limit) : t ∈ all_tracks := by
  simp only [discovery_pool] at ht
  split at ht
  · rcases List.mem_append.mp ht with h | h
    · exact (List.mem_filter.mp h).1
    · exact (List.mem_filter.mp h).1
  · exact (List.mem_filter.mp ht).1

theorem nodup_discovery_pool {all_tracks : List Track} {limit : Nat}
    (hall : all_tracks.Nodup) : (discovery_pool all_tracks limit).Nodup := by
  simp only [discovery_pool]
  split
  · refine List.nodup_append.mpr
      ⟨List.Nodup.filter _ hall, List.Nodup.filter _ hall, ?_⟩
    intro a ha hb
    have h₁ := List.mem_filter.mp ha
    have h₂ := List.mem_filter.mp hb
    have hlt : a.play_count < 3 := by simpa using h₁.2
    have hge : 3 ≤ a.play_count := by
      have := h₂.2
      simp only [decide_eq_true_eq] at this
      exact this.1
    exact absurd hlt (not_lt.mpr hge)
  · exact List.Nodup.filter _ hall

theorem nodup_discovery_sorted {all_tracks : List Track} {limit : Nat}
    (hall : all_tracks.Nodup) : (discovery_sorted all_tracks limit).Nodup :=
  (sortByDownloadedDesc_perm _).nodup_iff.mpr (nodup_discovery_pool hall)

theorem discovery_selected_length_ge {all_tracks : List Track}
    {limit k : Nat}
    (hk : k ≤ ((discovery_pool all_tracks limit).map
      (fun t => t.artist)).dedup.length)
    (hlen : (discovery_selected all_tracks limit).length < limit) :
    k ≤ (discovery_selected all_tracks limit).length := by
  have hcov := discovery_first_pass_covers limit
    (discovery_sorted all_tracks limit) [] [] hlen
  have hsubset :
      ((discovery_sorted all_tracks limit).map (fun t => t.artist)).dedup ⊆
        (discovery_selected all_tracks limit).map (fun u => u.artist) := by
    intro a ha
    have ha' := List.dedup_subset _ ha
    obtain ⟨t, ht, rfl⟩ := List.mem_map.mp ha'
    rcases hcov t ht with h | h
    · cases h
    · exact h
  have hsp := List.Nodup.subperm (List.nodup_dedup _) hsubset
  have hlength :
      ((discovery_sorted all_tracks limit).map (fun t => t.artist)).dedup.length
        = ((discovery_pool all_tracks limit).map
            (fun t => t.artist)).dedup.length :=
    (((sortByDownloadedDesc_perm _).map _).dedup).length_eq
  calc k ≤ _ := hk
    _ = _ := hlength.symm
    _ ≤ _ := hsp.length_le
    _ = _ := List.length_map _ _

theorem discovery_selected_artists_nodup (all_tracks : List Track)
    (limit : Nat) :
    ((discovery_selected all_tracks limit).map (fun t => t.artist)).Nodup :=
  discovery_first_pass_artists_nodup limit _ [] [] (by simp) (by simp)

theorem mem_discovery_selected {all_tracks : List Track} {limit : Nat}
    {t : Track} (ht : t ∈ discovery_selected all_tracks limit) :
    t ∈ all_tracks := by
  rcases mem_discovery_first_pass limit _ [] [] t ht with h | h
  · cases h
  · exact mem_discovery_pool ((sortByDownloadedDesc_perm _).mem_iff.mp h)

theorem dict_upsert_ids (acc : List Track) (t : Track) :
    (dict_upsert acc t).map (fun u => u.id) =
      if acc.any (fun u => u.id = t.id) then acc.map (fun u => u.id)
      else acc.map (fun u => u.id) ++ [t.id] := by
  unfold dict_upsert
  split
  · rw [List.map_map]
    refine List.map_congr_left ?_
    intro x _
    simp only [Function.comp_apply]
    split
    · next hxid => rw [← hxid]
    · rfl
  · simp

theorem dedupById_loop_ids_nodup :
    ∀ (l : List Track) (acc : List Track),
      (acc.map (fun u => u.id)).Nodup →
      ((l.foldl dict_upsert acc).map (fun u => u.id)).Nodup := by
  intro l
  induction l with
  | nil => intro acc h; simpa using h
  | cons t rest ih =>
    intro acc h
    simp only [List.foldl_cons]
    apply ih
    rw [dict_upsert_ids]
    split
    · exact h
    · next hany =>
      refine List.nodup_append.mpr ⟨h, by simp, ?_⟩
      intro a ha hb
      simp only [List.mem_singleton] at hb
      subst hb
      obtain ⟨u, hu, hui⟩ := List.mem_map.mp ha
      exact hany (List.any_eq_true.mpr ⟨u, hu, by simpa using hui⟩)

theorem dedupById_ids_nodup (l : List Track) :
    ((dedupById l).map (fun u => u.id)).Nodup :=
  dedupById_loop_ids_nodup l [] (by simp)

theorem favorites_ranked_perm (all_tracks : List Track) (now : Int)
    (limit : Nat) :
    (favorites_ranked all_tracks now limit).Perm
      (favorites_selected all_tracks now limit) :=
  List.perm_insertionSort _ _

theorem favorites_ranked_ids_nodup (all_tracks : List Track) (now : Int)
    (limit : Nat) :
    ((favorites_ranked all_tracks now limit).map (fun t => t.id)).Nodup :=
  ((favorites_ranked_perm all_tracks now limit).map _).nodup_iff.mpr
    (dedupById_ids_nodup _)

theorem favorites_ranked_sorted (all_tracks : List Track) (now : Int)
    (limit : Nat) :
    (favorites_ranked all_tracks now limit).Pairwise
      (fun a b => favorite_score now b ≤ favorite_score now a) := by
  haveI : IsTotal Track (fun a b => favorite_score now b ≤ favorite_score now a) :=
    ⟨fun a b => le_total _ _⟩
  haveI : IsTrans Track (fun a b => favorite_score now b ≤ favorite_score now a) :=
    ⟨fun a b c hab hbc => le_trans hbc hab⟩
  exact List.sorted_insertionSort _ _

theorem generate_favorites_ids_nodup {rng : RNG} (hV : rng.Valid)
    (all_tracks : List Track) (now : Int) (limit : Nat) :
    ((generate_favorites_queue rng all_tracks now limit).map
      (fun t => t.id)).Nodup := by
  unfold generate_favorites_queue
  refine ((hV.1 _).map _).nodup_iff.mpr ?_
  exact List.Nodup.sublist
    (List.Sublist.map _ (List.take_sublist _ _))
    (favorites_ranked_ids_nodup all_tracks now limit)

theorem generate_discovery_take_artists_nodup {rng : RNG}
    {all_tracks : List Track} {limit k : Nat}
    (hk : k ≤ ((discovery_pool all_tracks limit).map
      (fun t => t.artist)).dedup.length) :
    (((generate_discovery_queue rng all_tracks limit).take k).map
      (fun t => t.artist)).Nodup := by
  have hnd := discovery_selected_artists_nodup all_tracks limit
  simp only [generate_discovery_queue]
  split
  · next hfill =>
    have hksel := discovery_selected_length_ge hk hfill
    rw [List.take_append_of_le_length hksel]
    exact List.Nodup.sublist (List.Sublist.map _ (List.take_sublist _ _)) hnd
  · exact List.Nodup.sublist (List.Sublist.map _ (List.take_sublist _ _)) hnd

theorem mem_generate_discovery_queue {rng : RNG} (hV : rng.Valid)
    {all_tracks : List Track} {limit : Nat} {x : Track}
    (hx : x ∈ generate_discovery_queue rng all_tracks limit) :
    x ∈ all_tracks := by
  simp only [generate_discovery_queue] at hx
  split at hx
  · rcases List.mem_append.mp hx with h | h
    · exact mem_discovery_selected h
    · have h₁ := (hV.1 _).mem_iff.mp (List.mem_of_mem_take h)
      exact mem_discovery_pool
        ((sortByDownloadedDesc_perm _).mem_iff.mp (List.mem_filter.mp h₁).1)
  · exact mem_discovery_selected hx

theorem nodup_generate_discovery_queue {rng : RNG} (hV : rng.Valid)
    {all_tracks : List Track} {limit : Nat} (hall : all_tracks.Nodup) :
    (generate_discovery_queue rng all_tracks limit).Nodup := by
  have hndsel : (discovery_selected all_tracks limit).Nodup :=
    List.Nodup.of_map _ (discovery_selected_artists_nodup all_tracks limit)
  simp only [generate_discovery_queue]
  split
  · refine List.nodup_append.mpr ⟨hndsel, ?_, ?_⟩
    · have hrem : ((discovery_sorted all_tracks limit).filter
          (fun t => ¬ t ∈ discovery_selected all_tracks limit)).Nodup :=
        List.Nodup.filter _ (nodup_discovery_sorted hall)
      exact List.Nodup.sublist (List.take_sublist _ _)
        ((hV.1 _).nodup_iff.mpr hrem)
    · intro a ha hb
      have hb' := (hV.1 _).mem_iff.mp (List.mem_of_mem_take hb)
      have hnotin : ¬ a ∈ discovery_selected all_tracks limit := by
        simpa using (List.mem_filter.mp hb').2
      exact hnotin ha
  · exact hndsel

theorem generate_discovery_ids_nodup {rng : RNG} (hV : rng.Valid)
    {all_tracks : List Track} {limit : Nat}
    (hids : (all_tracks.map (fun t => t.id)).Nodup) :
    ((generate_discovery_queue rng all_tracks limit).map
      (fun t => t.id)).Nodup := by
  have hall : all_tracks.Nodup := List.Nodup.of_map _ hids
  exact nodup_map_of_mem _ (nodup_generate_discovery_queue hV hall)
    (fun x hx => mem_generate_discovery_queue hV hx) hids

theorem generate_mood_ids_nodup {rng : RNG} (hV : rng.Valid)
    {all_tracks : List Track} {mood : String} {limit : Nat}
    (hids : (all_tracks.map (fun t => t.id)).Nodup) :
    ((generate_mood_queue rng all_tracks mood limit).map
      (fun t => t.id)).Nodup := by
  have hall : all_tracks.Nodup := List.Nodup.of_map _ hids
  exact nodup_map_of_mem _ (nodup_generate_mood_queue hV hall)
    (fun x hx => (mem_mood_pool (mem_generate_mood_queue hV hx)).1) hids

/-- C1: the claim says that after `removeFromQueue(trackId, queueType)` the
stored queue excludes the track and the remaining positions are unique and
contiguous from 0.  The code deletes the row first and only then reads
`MIN(position)` for that very track, so the subquery is NULL and the reorder
UPDATE matches no row: on the queue [(1,0),(2,1),(3,2)], removing track 2
leaves positions [0,2], not [0,1].  This theorem evaluates the code at that
failing input. -/
theorem C1_remove_from_queue_not_recompacted :
    remove_from_queue 2 "default"
        [⟨1, 0, "default"⟩, ⟨2, 1, "default"⟩, ⟨3, 2, "default"⟩]
      = [⟨1, 0, "default"⟩, ⟨3, 2, "default"⟩] ∧
    queuePositions "default"
        (remove_from_queue 2 "default"
          [⟨1, 0, "default"⟩, ⟨2, 1, "default"⟩, ⟨3, 2, "default"⟩])
      = [0, 2] ∧
    ¬ contiguousFromZero
        (queuePositions "default"
          (remove_from_queue 2 "default"
            [⟨1, 0, "default"⟩, ⟨2, 1, "default"⟩, ⟨3, 2, "default"⟩])) := by
  refine ⟨by decide, by decide, ?_⟩
  intro h
  rw [contiguousFromZero] at h
  exact absurd h (by decide)

/-- C5: `suggest_mood_for_features` evaluates the 8-rule cascade in order
with first match winning; on the three spec inputs it returns energetic
(rule 1), sad (rule 3) and calm (rule 7, after falling through rules 1-6). -/
theorem C5_suggest_cascade_examples :
    suggest_mood_for_features
        [("tempo", 150), ("rmse_mean", 2/10), ("spectral_centroid_mean", 1000)]
      = "energetic" ∧
    suggest_mood_for_features
        [("tempo", 70), ("rmse_mean", 5/100), ("spectral_centroid_mean", 1000)]
      = "sad" ∧
    suggest_mood_for_features
        [("tempo", 110), ("rmse_mean", 5/100), ("spectral_centroid_mean", 1000)]
      = "calm" := by
  refine ⟨?_, ?_, ?_⟩ <;> norm_num +decide [suggest_mood_for_features, dictGet]

/-- C10: for every feature dict, `suggest_mood_for_features` returns a label
and that label belongs to the closed 10-label MOOD_CATEGORIES enumeration. -/
theorem C10_suggest_always_in_mood_categories
    (features : List (String × ℚ)) :
    suggest_mood_for_features features ∈ MOOD_CATEGORIES := by
  simp only [suggest_mood_for_features]
  split_ifs <;> decide

/-- C2 counterexample: the claim asserts every strategy hands a
duplicate-free id list to `create_smart_queue`, but under one possible
(valid) behaviour of the random module the mixed strategy emits
[1,1,2,1,2] over a duplicate-free two-track store (a track sitting in the
favorites, discovery and mood sub-queues at once), and the artist strategy
emits [1,2,3,4,5,2,3,4,5] when two stored artist names differ only by
letter case. -/
theorem C2_mixed_and_artist_queues_can_duplicate :
    idRNG.Valid ∧
    ((mixedStore.map (fun t => t.id)).Nodup ∧
      (generate_mixed_queue idRNG mixedStore 0 8).map (fun t => t.id)
        = [1, 1, 2, 1, 2]) ∧
    ((artistStore.map (fun t => t.id)).Nodup ∧
      (generate_artist_queue idRNG artistStore "Alice" 9).map (fun t => t.id)
        = [1, 2, 3, 4, 5, 2, 3, 4, 5]) := by
  refine ⟨idRNG_valid, ⟨by decide, by decide⟩, ⟨by decide, ?_⟩⟩
  have hsim : find_similar_artists "Alice" artistStore = ["Bob", "bob"] := by
    norm_num +decide [find_similar_artists, meanPlays, stats_insert,
      lowerString, List.foldl, artistStore]
  simp only [generate_artist_queue]
  rw [hsim]
  decide

/-- C2 amended: over any store whose track ids are pairwise distinct and
any valid behaviour of the random module, the mood, discovery and favorites
strategies do produce duplicate-free id lists (the artist and mixed
strategies can duplicate, per the counterexample). -/
theorem C2_mood_discovery_favorites_deduplicated
    (rng : RNG) (hV : rng.Valid) (all_tracks : List Track)
    (hids : (all_tracks.map (fun t => t.id)).Nodup)
    (mood : String) (now : Int) (limit : Nat) :
    ((generate_mood_queue rng all_tracks mood limit).map
      (fun t => t.id)).Nodup ∧
    ((generate_discovery_queue rng all_tracks limit).map
      (fun t => t.id)).Nodup ∧
    ((generate_favorites_queue rng all_tracks now limit).map
      (fun t => t.id)).Nodup :=
  ⟨generate_mood_ids_nodup hV hids, generate_discovery_ids_nodup hV hids,
   generate_favorites_ids_nodup hV all_tracks now limit⟩

/-- C2 witness: the amended statement instantiated at the identity
generator and a concrete duplicate-free store. -/
theorem C2_mood_discovery_favorites_deduplicated_witness :
    ((generate_mood_queue idRNG mixedStore "happy" 8).map
      (fun t => t.id)).Nodup ∧
    ((generate_discovery_queue idRNG mixedStore 8).map
      (fun t => t.id)).Nodup ∧
    ((generate_favorites_queue idRNG mixedStore 0 8).map
      (fun t => t.id)).Nodup :=
  C2_mood_discovery_favorites_deduplicated idRNG idRNG_valid mixedStore
    (by decide) "happy" 0 8

/-- C3 counterexample: the claim says a train() whose fit succeeded but
whose save failed is reported as failed overall; on ten usable samples with
a successful fit and a failing joblib dump, `train_model` nevertheless
returns True, because `_save_model` catches the I/O error itself and only
logs it. -/
theorem C3_train_reports_success_despite_save_failure :
    10 ≤ (collect_training (fun _ => none) trainStore).length ∧
    (train_model ⟨none, scalerC⟩ trainStore (fun _ => none)
        (Except.ok (classifierC, scalerC))
        (Except.error "disk full")).1 = true := by
  constructor
  · decide
  · rfl

/-- C3 amended: whenever at least 10 usable samples are collected and the
fit succeeds, train() returns True for every save outcome — a failing save
is only logged inside `_save_model` and never changes the reported result. -/
theorem C3_train_result_ignores_save_outcome
    (st : DetectorState) (tracks : List Track)
    (fs : Track → Option (List ℚ)) (c : Classifier) (s : Scaler)
    (dump : Except String Unit)
    (hdata : 10 ≤ (collect_training fs tracks).length) :
    (train_model st tracks fs (Except.ok (c, s)) dump).1 = true := by
  unfold train_model
  rw [if_neg (not_lt.mpr hdata)]

/-- C3 witness: the amended statement instantiated at ten concrete usable
samples and a failing dump. -/
theorem C3_train_result_ignores_save_outcome_witness :
    10 ≤ (collect_training (fun _ => none) trainStore).length ∧
    (train_model detectorStateC trainStore (fun _ => none)
        (Except.ok (classifierC, scalerC)) (Except.error "oops")).1 = true :=
  ⟨by decide,
   C3_train_result_ignores_save_outcome detectorStateC trainStore
     (fun _ => none) classifierC scalerC (Except.error "oops") (by decide)⟩

/-- C9: with fewer than 10 usable labelled samples, `train_model` reports
failure and returns the state unchanged, so the previously loaded classifier
and scaler answer `predict` exactly as before. -/
theorem C9_insufficient_data_state_untouched
    (st : DetectorState) (tracks : List Track)
    (fs : Track → Option (List ℚ))
    (ml : Except String (Classifier × Scaler)) (dump : Except String Unit)
    (h : (collect_training fs tracks).length < 10) :
    train_model st tracks fs ml dump = (false, st) ∧
    ∀ v, predict_from_features (train_model st tracks fs ml dump).2 v
      = predict_from_features st v := by
  have heq : train_model st tracks fs ml dump = (false, st) := by
    unfold train_model
    rw [if_pos h]
  exact ⟨heq, fun v => by rw [heq]⟩

/-- C9 witness: the statement instantiated at a loaded model and an empty
sample set. -/
theorem C9_insufficient_data_state_untouched_witness :
    (collect_training (fun _ => none) ([] : List Track)).length < 10 ∧
    train_model detectorStateC [] (fun _ => none) (Except.error "no fit")
        (Except.ok ()) = (false, detectorStateC) :=
  ⟨by decide,
   (C9_insufficient_data_state_untouched detectorStateC []
     (fun _ => none) (Except.error "no fit") (Except.ok ()) (by decide)).1⟩

/-- C6: for every store and limit, the mood queue only ever returns tracks
whose mood is the target or lies in the single-hop similarity entry of the
target (no transitive expansion); over the concrete store of three happy
tracks plus five upbeat/energetic/romantic tracks, a happy queue of limit 10
has exactly 8 tracks, all within that closed mood set. -/
theorem C6_mood_queue_similarity_closure (rng : RNG) (hV : rng.Valid) :
    (∀ (all_tracks : List Track) (mood : String) (limit : Nat) (t : Track),
      t ∈ generate_mood_queue rng all_tracks mood limit →
      t.mood = some mood ∨ ∃ m ∈ get_similar_moods mood, t.mood = some m) ∧
    (generate_mood_queue rng c6Store "happy" 10).length = 8 ∧
    (∀ t ∈ generate_mood_queue rng c6Store "happy" 10,
      t.mood = some "happy" ∨ t.mood = some "upbeat" ∨
      t.mood = some "energetic" ∨ t.mood = some "romantic") := by
  have hmem : ∀ (all_tracks : List Track) (mood : String) (limit : Nat)
      (t : Track), t ∈ generate_mood_queue rng all_tracks mood limit →
      t.mood = some mood ∨ ∃ m ∈ get_similar_moods mood, t.mood = some m :=
    fun all_tracks mood limit t ht =>
      (mem_mood_pool (mem_generate_mood_queue hV ht)).2
  refine ⟨hmem, ?_, ?_⟩
  · have hsel : mood_selection rng c6Store "happy" 10
        = sortByPlayCountDesc (mood_pool c6Store "happy" 10) := by
      simp only [mood_selection]
      rw [if_neg (by decide)]
    unfold generate_mood_queue
    rw [hsel, List.length_take, (hV.1 _).length_eq]
    decide
  · intro t ht
    rcases hmem c6Store "happy" 10 t ht with h | ⟨m, hm, hmood⟩
    · exact Or.inl h
    · have htable : get_similar_moods "happy"
          = ["upbeat", "energetic", "romantic"] := by decide
      rw [htable] at hm
      have hm' : m = "upbeat" ∨ m = "energetic" ∨ m = "romantic" := by
        simpa using hm
      rcases hm' with rfl | rfl | rfl
      · exact Or.inr (Or.inl hmood)
      · exact Or.inr (Or.inr (Or.inl hmood))
      · exact Or.inr (Or.inr (Or.inr hmood))

/-- C6 witness: the statement instantiated at the identity generator. -/
theorem C6_mood_queue_similarity_closure_witness :
    (∀ (all_tracks : List Track) (mood : String) (limit : Nat) (t : Track),
      t ∈ generate_mood_queue idRNG all_tracks mood limit →
      t.mood = some mood ∨ ∃ m ∈ get_similar_moods mood, t.mood = some m) ∧
    (generate_mood_queue idRNG c6Store "happy" 10).length = 8 ∧
    (∀ t ∈ generate_mood_queue idRNG c6Store "happy" 10,
      t.mood = some "happy" ∨ t.mood = some "upbeat" ∨
      t.mood = some "energetic" ∨ t.mood = some "romantic") :=
  C6_mood_queue_similarity_closure idRNG idRNG_valid

/-- C7: whenever the eligible discovery pool holds at least k distinct
artists, the first k tracks of the discovery queue are pairwise by distinct
artists — the first pass picks at most one track per artist and, were the
selection shorter than k, it would have exhausted every pool artist. -/
theorem C7_discovery_first_k_distinct_artists
    (rng : RNG) (all_tracks : List Track) (limit k : Nat)
    (hk : k ≤ ((discovery_pool all_tracks limit).map
      (fun t => t.artist)).dedup.length) :
    (((generate_discovery_queue rng all_tracks limit).take k).map
      (fun t => t.artist)).Nodup :=
  generate_discovery_take_artists_nodup hk

/-- C7 witness: a five-track pool with three distinct artists and k = 3. -/
theorem C7_discovery_first_k_distinct_artists_witness :
    3 ≤ ((discovery_pool artistStore 25).map
      (fun t => t.artist)).dedup.length ∧
    (((generate_discovery_queue idRNG artistStore 25).take 3).map
      (fun t => t.artist)).Nodup :=
  ⟨by decide,
   C7_discovery_first_k_distinct_artists idRNG artistStore 25 3 (by decide)⟩

/-- C8: the favorites score is play_count * 10 plus max(0, 30 - whole days
since last played) with a zero recency term for never-played tracks; the
selection is sorted descending by that score before being truncated to
`limit` (and only then shuffled); trackA (play_count 10, never played)
scores 100, trackB (play_count 1, played one day ago) scores 39, and A
ranks above B. -/
theorem C8_favorites_scoring_and_ranking :
    (∀ (now : Int) (t : Track), t.last_played = none →
      favorite_score now t = t.play_count * 10) ∧
    (∀ (now lp : Int) (t : Track), t.last_played = some lp →
      favorite_score now t
        = t.play_count * 10 + max 0 (30 - (now - lp).fdiv 86400)) ∧
    (∀ (all_tracks : List Track) (now : Int) (limit : Nat),
      (favorites_ranked all_tracks now limit).Pairwise
        (fun a b => favorite_score now b ≤ favorite_score now a)) ∧
    (∀ (rng : RNG) (all_tracks : List Track) (now : Int) (limit : Nat),
      generate_favorites_queue rng all_tracks now limit
        = rng.shuffleTracks
            ((favorites_ranked all_tracks now limit).take limit)) ∧
    favorite_score favNow favA = 100 ∧
    favorite_score favNow favB = 39 ∧
    favorites_ranked favStore favNow 40 = [favA, favB] := by
  refine ⟨?_, ?_, fun a n l => favorites_ranked_sorted a n l,
    fun _ _ _ _ => rfl, by decide, by decide, by decide⟩
  · intro now t h
    simp [favorite_score, h]
  · intro now lp t h
    simp [favorite_score, h]

/-- C8 witness: the scoring clauses applied to the two example tracks. -/
theorem C8_favorites_scoring_and_ranking_witness :
    favorite_score favNow favA = favA.play_count * 10 ∧
    favorite_score favNow favB
      = favB.play_count * 10
        + max 0 (30 - (favNow - (favNow - 86400)).fdiv 86400) :=
  ⟨C8_favorites_scoring_and_ranking.1 favNow favA rfl,
   C8_favorites_scoring_and_ranking.2.1 favNow (favNow - 86400) favB rfl⟩
